import Mathlib

/-!
Verification of the AMEE_Widget chart-capture-and-export pipeline
(`printCustomized/src/runtime/utils`), as a shallow embedding in Lean 4.

Conventions of the embedding:
* JavaScript numbers are modelled as `ℚ` (claims never exercise NaN or
  floating-point rounding), timestamps (`Date.now()`) as `ℕ`.
* JavaScript `Map` objects are modelled as association lists with
  insertion-order upsert, which is the observable behaviour of `Map.set`,
  `Map.get` and `Map.forEach`.
* DOM, `html2canvas`, jsPDF and the data-source backend are modelled as
  explicit environment records supplying the outcome of each external call;
  the control flow of the TypeScript functions is translated faithfully.
* `try/catch` is modelled with `Except`/explicit matches on the outcomes of
  the only operations that can throw inside a given `try` block.
-/

namespace ChartPrint

/-! ## JavaScript values (the `string | number` category/value universe) -/

/-- A JavaScript field value as seen by the extraction pipeline:
a number, a string, or `null`.  `undefined` is modelled by `Option`. -/
inductive JsVal where
  | num (q : ℚ)
  | str (s : String)
  | jsNull
deriving DecidableEq

/-- `String(v)` for the values we model.  For integral numbers this is the
exact JavaScript rendering (`String(2020) = "2020"`); non-integral rationals
are rendered as `num/den`, an abstraction of the JS decimal rendering that is
never exercised by the claims. -/
def jsToString : JsVal → String
  | .num q => if q.den = 1 then toString q.num else toString q
  | .str s => s
  | .jsNull => "null"

/-- Digits of a numeral, folded to a natural number. -/
def digitsToNat (l : List Char) : ℕ :=
  l.foldl (fun a c => a * 10 + (c.toNat - 48)) 0

/-- `parseFloat` on a string, for decimal literals: optional leading
whitespace, optional sign, digits with an optional fractional part.
Returns `none` where JavaScript returns `NaN`. -/
def strParseFloat (s : String) : Option ℚ :=
  let l := s.toList.dropWhile (fun c => c = ' ' ∨ c = '\t' ∨ c = '\n' ∨ c = '\r')
  let sgn : ℚ := if l.head? = some '-' then -1 else 1
  let l := if l.head? = some '-' ∨ l.head? = some '+' then l.tail else l
  let intPart := l.takeWhile Char.isDigit
  let rest := l.dropWhile Char.isDigit
  let fracPart := match rest with
    | '.' :: t => t.takeWhile Char.isDigit
    | _ => []
  if intPart.isEmpty ∧ fracPart.isEmpty then none
  else some (sgn * ((digitsToNat intPart : ℚ) +
    (digitsToNat fracPart : ℚ) / ((10 : ℚ) ^ fracPart.length)))

/-- `parseFloat(v)` on a JavaScript value (the argument is coerced to a
string first, so numbers parse back to themselves and `null` gives `NaN`). -/
def jsParseFloat : JsVal → Option ℚ
  | .num q => some q
  | .str s => strParseFloat s
  | .jsNull => none

/-- `parseFloat(v) || 0`: the value-coercion used by the aggregation loop
(`chart-print-service.ts:635`).  `NaN` (and a missing field) becomes `0`. -/
def parseFloatOr0 (v : Option JsVal) : ℚ :=
  ((v.bind jsParseFloat).getD 0)

/-! ## Records and field access -/

/-- The data of one `DataRecord` (`record.getData()`): an object, modelled as
an association list from field names to values, in `Object.keys` order. -/
abbrev RecData := List (String × JsVal)

/-- `data[field]`: first binding of the field, `none` for `undefined`. -/
def getField (r : RecData) (f : String) : Option JsVal :=
  (r.find? (fun p => p.1 = f)).map (fun p => p.2)

/-- Field access through an optional field name (an `undefined` field name
indexes to `undefined`). -/
def getFieldO (r : RecData) (f : Option String) : Option JsVal :=
  f.bind (getField r)

/-! ## Substring search and field auto-detection -/

/-- `l` contains `sub` as a contiguous sublist (JS `String.includes`). -/
def listHasSub (sub : List Char) : List Char → Bool
  | [] => sub.isEmpty
  | c :: t => sub.isPrefixOf (c :: t) || listHasSub sub t

/-- JS `a.includes(b)` on strings. -/
def strHasSub (s sub : String) : Bool :=
  listHasSub sub.toList s.toList

/-- ASCII lowercasing of one character (JS `toLowerCase` on the ASCII
range this pipeline compares). -/
def charLower (c : Char) : Char :=
  if 65 ≤ c.toNat ∧ c.toNat ≤ 90 then Char.ofNat (c.toNat + 32) else c

/-- `s.toLowerCase()`. -/
def strLower (s : String) : String :=
  String.mk (s.toList.map charLower)

/-- The category-field auto-detection pattern
`/year|annee|date|category|categorie|name|nom|label/i.test(f)`
(`chart-print-service.ts:616`). -/
def looksCategoryField (f : String) : Bool :=
  let lf := strLower f
  strHasSub lf "year" || strHasSub lf "annee" || strHasSub lf "date" ||
  strHasSub lf "category" || strHasSub lf "categorie" ||
  strHasSub lf "name" || strHasSub lf "nom" || strHasSub lf "label"

/-- `typeof val === "number" || !isNaN(parseFloat(val))`: the value-field
auto-detection test (`chart-print-service.ts:624`). -/
def looksNumericVal (v : Option JsVal) : Bool :=
  match v with
  | some (.num _) => true
  | w => (w.bind jsParseFloat).isSome

/-- JS `a || b` on an optional string, where the empty string is falsy. -/
def jsOrS (a b : Option String) : Option String :=
  match a with
  | some s => if s = "" then b else some s
  | none => b

/-- `!f || !sampleFields.includes(f)` negated: the declared field is kept
only when truthy and present in the sample record's schema. -/
def fieldKnown (f : Option String) (fields : List String) : Bool :=
  match f with
  | some c => decide (c ≠ "") && decide (c ∈ fields)
  | none => false

/-- Auto-detected category field (`chart-print-service.ts:614-617`):
first field matching the category pattern, else `sampleFields[0]`. -/
def autoCategoryField (fields : List String) : Option String :=
  jsOrS (fields.find? looksCategoryField) fields.head?

/-- Auto-detected value field (`chart-print-service.ts:623-627`):
first field with a numeric-coercible sample value, else `sampleFields[1]`. -/
def autoValueField (r0 : RecData) (fields : List String) : Option String :=
  jsOrS (fields.find? (fun f => looksNumericVal (getField r0 f))) (fields.get? 1)

/-- Field detection of `extractChartData` (`chart-print-service.ts:602-630`):
declared fields are kept when present in the first record's schema,
otherwise auto-detected.  With no records the declared fields are kept. -/
def detectFields (cf vf : Option String) (records : List RecData) :
    Option String × Option String :=
  match records with
  | [] => (cf, vf)
  | r0 :: _ =>
    let fields := r0.map (fun p => p.1)
    let acf := if fieldKnown cf fields then cf else autoCategoryField fields
    let avf := if fieldKnown vf fields then vf else autoValueField r0 fields
    (acf, avf)

/-! ## Aggregation map (JS `Map` accumulation, `chart-print-service.ts:600-651`) -/

/-- One step of `aggregatedData.set(category, existing + value)`: a JS `Map`
keeps an existing key at its position and appends new keys. -/
def upsert (k : JsVal) (v : ℚ) : List (JsVal × ℚ) → List (JsVal × ℚ)
  | [] => [(k, v)]
  | (k', v') :: t =>
    if k = k' then (k', v' + v) :: t else (k', v') :: upsert k v t

/-- `aggregatedData.get(category) || 0` (a stored `0` and a missing key both
read back as `0`, exactly as in JS). -/
def lookupV (k : JsVal) (m : List (JsVal × ℚ)) : ℚ :=
  ((m.find? (fun p => p.1 = k)).map (fun p => p.2)).getD 0

/-- Aggregation of a list of already-extracted `(category, value)` pairs. -/
def aggPairsFrom (m : List (JsVal × ℚ)) (l : List (JsVal × ℚ)) :
    List (JsVal × ℚ) :=
  l.foldl (fun acc p => upsert p.1 p.2 acc) m

/-- The map accumulated by the aggregation loop over `(category, value)`. -/
def aggPairs (l : List (JsVal × ℚ)) : List (JsVal × ℚ) :=
  aggPairsFrom [] l

/-- The `(category, value)` contribution of one record
(`chart-print-service.ts:632-642`): records whose category field is
`undefined` or `null` are skipped. -/
def recPair (acf avf : Option String) (r : RecData) : Option (JsVal × ℚ) :=
  match getFieldO r acf with
  | none => none
  | some .jsNull => none
  | some c => some (c, parseFloatOr0 (getFieldO r avf))

/-- The aggregation loop over the records. -/
def aggregateRecords (acf avf : Option String) (records : List RecData) :
    List (JsVal × ℚ) :=
  aggPairs (records.filterMap (recPair acf avf))

/-! ## The extracted record type and the sort -/

/-- `ChartDataRecord` (`chart-print-service.ts:427-432`); the aggregation
path always sets `label = String(category)` and no color. -/
structure ChartRec where
  category : JsVal
  value : ℚ
  label : String
deriving DecidableEq

/-- Lexicographic char-list comparison (JS string relational comparison,
which `localeCompare` reduces to on the ASCII data this pipeline sorts). -/
def charListLE : List Char → List Char → Bool
  | [], _ => true
  | _ :: _, [] => false
  | a :: as, b :: bs =>
    if a.toNat < b.toNat then true
    else if b.toNat < a.toNat then false
    else charListLE as bs

/-- The sort comparator of `chart-print-service.ts:654-659` as a `≤` test:
numeric comparison when both categories are numbers, else string
comparison of `String(category)`. -/
def cmpLE (a b : JsVal) : Bool :=
  match a, b with
  | .num x, .num y => decide (x ≤ y)
  | x, y => charListLE (jsToString x).toList (jsToString y).toList

/-- Insert into a run, keeping earlier-equal elements first (stable, as
`Array.prototype.sort` is). -/
def insertCmp {α : Type} (le : α → α → Bool) (x : α) : List α → List α
  | [] => [x]
  | y :: ys => if le x y then x :: y :: ys else y :: insertCmp le x ys

/-- A stable comparison sort modelling `Array.prototype.sort(cmp)`. -/
def sortCmp {α : Type} (le : α → α → Bool) : List α → List α
  | [] => []
  | x :: xs => insertCmp le x (sortCmp le xs)

/-- Lines 644-659 of `chart-print-service.ts`: convert the aggregation map
to `ChartDataRecord`s (in map insertion order) and sort by category. -/
def aggregateAndSort (acf avf : Option String) (records : List RecData) :
    List ChartRec :=
  sortCmp (fun a b => cmpLE a.category b.category)
    ((aggregateRecords acf avf records).map
      (fun p => ⟨p.1, p.2, jsToString p.1⟩))

/-- The record-transformation core of `extractChartData`
(`chart-print-service.ts:598-674`): field detection, aggregation by
category, conversion, sort.  Returns the data list together with the
actual category/value fields used. -/
def extractChartDataCore (cf vf : Option String) (records : List RecData) :
    List ChartRec × Option String × Option String :=
  let fs := detectFields cf vf records
  (aggregateAndSort fs.1 fs.2 records, fs)

/-! ## DOM-parsing extraction (`extractChartDataFromDOM`, lines 690-833) -/

/-- A `ChartDataRecord` as produced by the DOM strategy, which also carries
a swatch color. -/
structure DomChartRec where
  category : JsVal
  value : ℚ
  label : String
  color : Option String
deriving DecidableEq

/-- The default ArcGIS palette `CHART_COLORS`
(`chart-print-service.ts:881-898`). -/
def CHART_COLORS : List String :=
  ["#5A9BD5", "#70AD47", "#ED7D31", "#FFC000", "#44546A", "#9E480E",
   "#997300", "#636363", "#264478", "#43682B", "#FF6B6B", "#4ECDC4",
   "#A855F7", "#EC4899", "#14B8A6", "#F97316"]

/-- One legend node as resolved by the selector cascade of method 1:
the trimmed text of the label sub-node, the trimmed text of the whole item,
the computed background color of the color sub-node, and the trimmed text
of the value sub-node (each `none` when the sub-node is absent). -/
structure DomLegendItem where
  labelElText : Option String
  itemText : Option String
  colorBg : Option String
  valueText : Option String

/-- One element of method 3's `[data-category], [data-label], [aria-label]`
harvest: the first non-empty of the three attributes, and `data-value`. -/
structure DomAttrItem where
  categoryAttr : Option String
  valueAttr : Option String

/-- The DOM surface consulted by `extractChartDataFromDOM`: whether the
chart element resolves, the legend nodes, the shadow-DOM legend texts and
the data-attribute nodes, plus the title/type read from the widget config. -/
structure DomEnv where
  chartElementFound : Bool
  chartTitle : String
  chartType : String
  legendItems : List DomLegendItem
  shadowItems : List String
  attrItems : List DomAttrItem

/-- `valueText.replace(/[^0-9.-]/g, "")` (`chart-print-service.ts:738`). -/
def keepNumChars (s : String) : String :=
  String.mk (s.toList.filter (fun c => c.isDigit || c = '.' || c = '-'))

/-- Method 1, one legend item (`chart-print-service.ts:715-748`). -/
def legendItemRec (it : DomLegendItem) : Option DomChartRec :=
  let label := (jsOrS it.labelElText it.itemText).getD ""
  let color := match it.colorBg with
    | some bg => if bg ≠ "" ∧ bg ≠ "rgba(0, 0, 0, 0)" then bg else "#5A9BD5"
    | none => "#5A9BD5"
  let value := parseFloatOr0 (some (.str (keepNumChars (it.valueText.getD ""))))
  if label = "" then none else some ⟨.str label, value, label, some color⟩

/-- Method 2, one shadow-DOM legend item (`chart-print-service.ts:761-771`). -/
def shadowItemRec (i : ℕ) (text : String) : Option DomChartRec :=
  if text = "" then none
  else some ⟨.str text, 0, text, (CHART_COLORS.get? (i % CHART_COLORS.length))⟩

/-- Method 3, one data-attribute element (`chart-print-service.ts:780-796`).
A non-numeric `data-value` gives `NaN` in JS; no claim observes values on
this path, and the model renders it as `0`. -/
def attrItemRec (i : ℕ) (it : DomAttrItem) : Option DomChartRec :=
  let category := (it.categoryAttr.filter (fun s => s ≠ "")).getD ""
  let value := (strParseFloat (it.valueAttr.getD "0")).getD 0
  if category = "" then none
  else some ⟨.str category, value, category,
    (CHART_COLORS.get? (i % CHART_COLORS.length))⟩

/-- Result type `ChartDataExtractionResult` (fields not observed by any
claim are omitted). -/
structure ExtractionResult where
  success : Bool
  data : List DomChartRec
  chartTitle : Option String
  error : Option String
deriving DecidableEq

/-- `extractChartDataFromDOM` (`chart-print-service.ts:690-833`): legend
parsing, then shadow-DOM parsing, then data-attribute harvesting; reports
failure only when all three produce zero records. -/
def extractChartDataFromDOM (env : DomEnv) : ExtractionResult :=
  if ¬env.chartElementFound then
    ⟨false, [], none, some "Élément Chart non trouvé dans le DOM"⟩
  else
    let m1 := env.legendItems.filterMap legendItemRec
    let m2 := if m1.isEmpty then
        (env.shadowItems.enum.filterMap (fun p => shadowItemRec p.1 p.2))
      else m1
    let m3 := if m2.isEmpty then
        (env.attrItems.enum.filterMap (fun p => attrItemRec p.1 p.2))
      else m2
    if m3.isEmpty then
      ⟨false, [], none, some "Impossible d'extraire les données depuis le DOM"⟩
    else
      ⟨true, m3, some env.chartTitle, none⟩

/-! ## Download filenames (`downloadPdf`, `downloadChartAsImage`) -/

/-- ASCII letter or digit: the character class `[a-z0-9]` with the `i`
flag. -/
def isAsciiAlnum (c : Char) : Bool :=
  (48 ≤ c.toNat ∧ c.toNat ≤ 57) ∨ (65 ≤ c.toNat ∧ c.toNat ≤ 90) ∨
  (97 ≤ c.toNat ∧ c.toNat ≤ 122)

/-- `s.replace(/[^a-z0-9]/gi, "_")` (`chart-print-service.ts:2732, 2989`):
every character outside the class is replaced by one underscore. -/
def sanitizeFilename (s : String) : String :=
  String.mk (s.toList.map (fun c => if isAsciiAlnum c then c else '_'))

/-- The download attribute set by `downloadPdf`
(`chart-print-service.ts:2732`). -/
def downloadPdfName (filename : String) (now : ℕ) : String :=
  sanitizeFilename filename ++ "_" ++ toString now ++ ".pdf"

/-- The download attribute set by `downloadChartAsImage`
(`chart-print-service.ts:2989`). -/
def downloadImageName (title : String) (now : ℕ) : String :=
  sanitizeFilename title ++ "_" ++ toString now ++ ".png"

/-- Modelled from the spec: "sanitization strips all characters outside
`[a-z0-9]` case-insensitively" — the sanitizer the spec describes. -/
def specStripSanitize (s : String) : String :=
  String.mk (s.toList.filter isAsciiAlnum)

/-- Modelled from the spec: the artifact name
`{sanitizedTitle}_{epochMillis}.{ext}` with the spec's strip-sanitizer. -/
def specArtifactName (title : String) (now : ℕ) (ext : String) : String :=
  specStripSanitize title ++ "_" ++ toString now ++ "." ++ ext

/-! ## Legend column distribution (`chart-print-service.ts:1243-1304`) -/

/-- `Math.ceil(legendData.length / legendColumns)`
(`chart-print-service.ts:1245`). -/
def itemsPerColumn (n c : ℕ) : ℕ := (n + c - 1) / c

/-- `Math.floor(i / itemsPerColumn)`: the column item `i` is drawn in
(`chart-print-service.ts:1258`). -/
def legendColumnOf (n c i : ℕ) : ℕ := i / itemsPerColumn n c

/-- Number of legend items placed in column `k` out of `n` items in `c`
columns. -/
def legendColCount (n c k : ℕ) : ℕ :=
  ((Finset.range n).filter (fun i => legendColumnOf n c i = k)).card

/-! ## Widget availability (`widget-utils` and `chart-print-service.ts`) -/

/-- `pre` is a prefix of `s` (JS `String.startsWith`). -/
def strStartsWith (s pre : String) : Bool :=
  pre.toList.isPrefixOf s.toList

/-- A registry entry as consulted by the availability checks. -/
structure WidgetEntry where
  manifestName : Option String
  uri : Option String
deriving DecidableEq

/-- `state.appConfig?.widgets[id]`. -/
def lookupWidget (ws : List (String × WidgetEntry)) (id : String) :
    Option WidgetEntry :=
  (ws.find? (fun p => p.1 = id)).map (fun p => p.2)

/-- `isChartWidgetAvailable` from `widget-utils` (`src/unnamed/part_002`,
lines 19-58): the lowercased manifest name must be `"chart"`, start with
`"chart"`, or contain `"chartwidget"`. -/
def isChartWidgetAvailable (reg : Option (List (String × WidgetEntry)))
    (id : String) : Bool :=
  match reg with
  | none => false
  | some ws =>
    if id = "" then false
    else
      let mn := (((lookupWidget ws id).bind
        (fun w => w.manifestName)).map strLower).getD ""
      mn = "chart" || strStartsWith mn "chart" || strHasSub mn "chartwidget"

/-- The `chart-print-service.ts:325-333` variant: the widget must exist and
its `uri` must contain the substring `"chart"`. -/
def isChartWidgetAvailableSvc (reg : Option (List (String × WidgetEntry)))
    (id : String) : Bool :=
  if id = "" then false
  else match reg with
    | none => false
    | some ws =>
      match lookupWidget ws id with
      | none => false
      | some w => ((w.uri.map (fun u => strHasSub u "chart")).getD false)

/-- Modelled from the spec: "its manifest tag matches a chart-type
predicate (exact or prefix match)", on the lowercased tag. -/
def specChartTagMatch (tag : String) : Bool :=
  tag = "chart" || strStartsWith tag "chart"

/-! ## Generic string-keyed maps (JS `Map` used by the two caches) -/

/-- `map.get(k)`. -/
def assocGet {β : Type} (m : List (String × β)) (k : String) : Option β :=
  (m.find? (fun p => p.1 = k)).map (fun p => p.2)

/-- `map.set(k, v)`: replaces in place, appends a new key. -/
def assocSet {β : Type} (k : String) (v : β) :
    List (String × β) → List (String × β)
  | [] => [(k, v)]
  | p :: t => if p.1 = k then (p.1, v) :: t else p :: assocSet k v t

/-- `map.delete(k)`. -/
def assocDel {β : Type} (m : List (String × β)) (k : String) :
    List (String × β) :=
  m.filter (fun p => p.1 ≠ k)

/-! ## Visual capture engine (`capture.ts`) -/

/-- Pixel dimensions of a canvas. -/
structure CanvasD where
  w : ℕ
  h : ℕ
deriving DecidableEq

/-- `Math.abs(a - b)` on naturals. -/
def natDist (a b : ℕ) : ℕ := max a b - min a b

/-- The rendering surface consulted by one run of `htmlToCanvas`
(`capture.ts:88-250`): container rect, the largest existing canvas
(as selected by `findLargestCanvas`), the outcome of the `html2canvas`
call, the largest qualifying `<svg>` and its decode outcome, and whether
each `getContext("2d")` call yields a context. -/
structure RasterEnv where
  rectW : ℕ
  rectH : ℕ
  existingCanvas : Option CanvasD
  ctxExisting : Bool
  h2c : Except String CanvasD
  ctxResize : Bool
  svg : Option CanvasD
  svgLoadOk : Bool
  ctxSvg : Bool

/-- The capture options observed by `htmlToCanvas`. -/
structure CaptureOpts where
  chartSize : Option CanvasD
  chartBackground : Option String
deriving DecidableEq

/-- `htmlToCanvas` (`capture.ts:88-250`): existing-canvas reuse, then
`html2canvas`, then the SVG fallback; its own `catch` turns every failure
(including the SVG decode rejection) into `null`. -/
def htmlToCanvas (env : RasterEnv) (opts : CaptureOpts) : Option CanvasD :=
  let actualW := if env.rectW = 0 then 400 else env.rectW
  let actualH := if env.rectH = 0 then 300 else env.rectH
  let targetW := match opts.chartSize with
    | some s => if s.w = 0 then actualW else s.w
    | none => actualW
  let targetH := match opts.chartSize with
    | some s => if s.h = 0 then actualH else s.h
    | none => actualH
  let scale := min 2 (max 1 ((targetW + actualW - 1) / actualW))
  let m1 : Option (Option CanvasD) :=
    match env.existingCanvas with
    | some c =>
      if 100 < c.w ∧ 100 < c.h then
        if natDist c.w targetW < 50 ∧ natDist c.h targetH < 50 then
          some (some c)
        else if env.ctxExisting then some (some ⟨targetW, targetH⟩)
        else none
      else none
    | none => none
  match m1 with
  | some r => r
  | none =>
    match env.h2c with
    | .ok canvas =>
      if 10 < natDist canvas.w (targetW * scale) ∨
         10 < natDist canvas.h (targetH * scale) then
        if env.ctxResize then some ⟨targetW, targetH⟩ else some canvas
      else some canvas
    | .error _ =>
      match env.svg with
      | some _ =>
        if env.svgLoadOk then
          if env.ctxSvg then some ⟨targetW, targetH⟩ else none
        else none
      | none => none

/-- `ChartCaptureResult` (`capture.ts` / `types.ts`). -/
structure CaptureResult where
  success : Bool
  dataUrl : Option String
  width : Option ℕ
  height : Option ℕ
  error : Option String
deriving DecidableEq

/-- The capture cache: identifier to `{result, timestamp}` (`cache.ts:29`). -/
def CaptureCache := List (String × CaptureResult × ℕ)

/-- `getCachedCapture` (`cache.ts:92-98`): TTL 5000 ms, checked at read. -/
def getCachedCapture (cache : CaptureCache) (id : String) (now : ℕ) :
    Option CaptureResult :=
  match assocGet cache id with
  | some (r, ts) => if now - ts < 5000 then some r else none
  | none => none

/-- External collaborators of one `captureChartAsImage` run: the
availability check, the DOM lookup, the rasterization surface and the
`canvas.toDataURL` outcome (which throws on a tainted canvas). -/
structure CaptureEnv where
  widgetAvailable : Bool
  elementFound : Bool
  raster : RasterEnv
  encode : Except String String

/-- Result, updated cache, and whether rasterization was invoked. -/
structure CaptureOutcome where
  result : CaptureResult
  cache : CaptureCache
  rasterized : Bool

/-- `captureChartAsImage` (`capture.ts:259-373`): cache consultation unless
`forceRefresh`, widget/DOM checks, rasterization, caching of successful
results; the surrounding `catch` (whose only remaining throw site is
`toDataURL`) converts any exception into a `success:false` result. -/
def captureChartAsImage (env : CaptureEnv) (cache : CaptureCache) (now : ℕ)
    (id : String) (opts : CaptureOpts) (forceRefresh : Bool) :
    CaptureOutcome :=
  match (if forceRefresh then none else getCachedCapture cache id now) with
  | some r => ⟨r, cache, false⟩
  | none =>
    if ¬env.widgetAvailable then
      ⟨⟨false, none, none, none,
        some ("Widget Chart non trouvé dans appConfig: " ++ id)⟩,
       cache, false⟩
    else if ¬env.elementFound then
      ⟨⟨false, none, none, none,
        some ("Élément DOM du Chart non trouvé: " ++ id)⟩,
       cache, false⟩
    else
      match htmlToCanvas env.raster opts with
      | none =>
        ⟨⟨false, none, none, none,
          some "Échec de la capture du diagramme - htmlToCanvas a retourné null"⟩,
         cache, false⟩
      | some c =>
        match env.encode with
        | .error e => ⟨⟨false, none, none, none, some e⟩, cache, true⟩
        | .ok url =>
          let r : CaptureResult := ⟨true, some url, some c.w, some c.h, none⟩
          ⟨r, assocSet id (r, now) cache, true⟩

/-! ## Element cache and DOM lookup (`cache.ts`, `getChartElement`) -/

/-- The element cache: identifier to `{element, timestamp}`; elements are
abstracted to numeric identities. -/
def ElemCache := List (String × ℕ × ℕ)

/-- `getCachedElement` (`cache.ts:68-74`): TTL 30000 ms checked at read;
note that this helper alone does not check document attachment. -/
def getCachedElement (cache : ElemCache) (id : String) (now : ℕ) :
    Option ℕ :=
  match assocGet cache id with
  | some (e, ts) => if now - ts < 30000 then some e else none
  | none => none

/-- DOM surface of the `chart-print-service.ts` `getChartElement`
(lines 2116-2196): attachment of elements, the outcomes of the three
primary and three secondary selectors (`.error` = the selector threw),
and the `[data-widgetid]` scan. -/
structure ElemEnv where
  attached : ℕ → Bool
  primarySel : List (Except Unit (Option ℕ))
  secondarySel : List (Except Unit (Option ℕ))
  widgetScan : List (String × ℕ)

/-- First selector that succeeds with an element; thrown selector errors
are swallowed. -/
def firstSelHit : List (Except Unit (Option ℕ)) → Option ℕ
  | [] => none
  | .error _ :: t => firstSelHit t
  | .ok none :: t => firstSelHit t
  | .ok (some e) :: _ => some e

/-- The non-cached lookup cascade of `getChartElement`
(`chart-print-service.ts:2133-2195`). -/
def freshLookup (env : ElemEnv) (id : String) : Option ℕ :=
  match firstSelHit env.primarySel with
  | some e => some e
  | none =>
    match firstSelHit env.secondarySel with
    | some e => some e
    | none =>
      (env.widgetScan.find? (fun p => p.1 = id)).map (fun p => p.2)

/-- Result, updated cache, and whether the element was served from cache. -/
structure ElemOutcome where
  result : Option ℕ
  cache : ElemCache
  fromCache : Bool

/-- Fresh-lookup tail of `getChartElement`: cache on success. -/
def elemFreshPath (env : ElemEnv) (cache : ElemCache) (now : ℕ)
    (id : String) : ElemOutcome :=
  match freshLookup env id with
  | some e => ⟨some e, assocSet id (e, now) cache, false⟩
  | none => ⟨none, cache, false⟩

/-- `getChartElement` from `chart-print-service.ts:2116-2196`: a cached
element within TTL is returned only if still attached to the document;
a detached entry is deleted and the lookup cascade rerun. -/
def getChartElementSvc (env : ElemEnv) (cache : ElemCache) (now : ℕ)
    (id : String) : ElemOutcome :=
  if id = "" then ⟨none, cache, false⟩
  else
    match assocGet cache id with
    | some (e, ts) =>
      if now - ts < 30000 then
        if env.attached e then ⟨some e, cache, true⟩
        else elemFreshPath env (assocDel cache id) now id
      else elemFreshPath env cache now id
    | none => elemFreshPath env cache now id

/-- DOM surface of the `widget-utils` `getChartElement`
(`src/unnamed/part_002:84-190`): attachment (`document.body.contains`)
and the result of its `[data-widgetid]` query plus container-descent
cascade, collapsed into one lookup outcome. -/
structure WuEnv where
  attached : ℕ → Bool
  fresh : Option ℕ

/-- `getChartElement` from `widget-utils`: the cached element is returned
only when still attached; otherwise the fresh lookup runs and its result
(if any) overwrites the cache entry. -/
def getChartElementWu (env : WuEnv) (cache : ElemCache) (now : ℕ)
    (id : String) : ElemOutcome :=
  match getCachedElement cache id now with
  | some e =>
    if env.attached e then ⟨some e, cache, true⟩
    else
      match env.fresh with
      | some e2 => ⟨some e2, assocSet id (e2, now) cache, false⟩
      | none => ⟨none, cache, false⟩
  | none =>
    match env.fresh with
    | some e2 => ⟨some e2, assocSet id (e2, now) cache, false⟩
    | none => ⟨none, cache, false⟩

/-! ## Professional PDF composition (`generateProfessionalChartPdf`) -/

/-- Outcome of `Promise.race([capturePromise, timeoutPromise])`
(`chart-print-service.ts:1081`): either the capture resolved first, or the
global timeout fired and the race rejected. -/
inductive RaceOutcome where
  | captured (r : CaptureResult)
  | timedOut
deriving DecidableEq

/-- External collaborators of one `generateProfessionalChartPdf` run. -/
structure PdfEnv where
  race : RaceOutcome
  extraction : ExtractionResult
  widgetLabel : Option String

/-- The options observed by the modelled control flow. -/
structure PdfOpts where
  title : Option String
  subtitle : Option String
  showLegend : Bool
  hasOnProgress : Bool

/-- The composed document (the observable shape of the returned blob). -/
structure PdfDoc where
  title : String
  hasImage : Bool
  legendCount : ℕ
deriving DecidableEq

/-- One `onProgress` invocation: stage and percentage. -/
def pdfEmit (hp : Bool) (evs : List (String × ℤ)) (ev : String × ℤ) :
    List (String × ℤ) :=
  if hp then evs ++ [ev] else evs

/-- `generateProfessionalChartPdf` (`chart-print-service.ts:1004-1374`):
progress stages, the capture/timeout race, composition; the `catch`
reports stage `"error"` with percentage `-1` through the progress
callback and returns `null`. -/
def generateProfessionalChartPdf (env : PdfEnv) (opts : PdfOpts) :
    Option PdfDoc × List (String × ℤ) :=
  let hp := opts.hasOnProgress
  let evs := pdfEmit hp [] ("init", 0)
  let evs := pdfEmit hp evs ("capture", 10)
  match env.race with
  | .timedOut => (none, pdfEmit hp evs ("error", -1))
  | .captured cr =>
    let evs := pdfEmit hp evs ("capture", 30)
    let evs := pdfEmit hp evs ("data", 35)
    let chartTitle := (jsOrS opts.title
      (jsOrS env.extraction.chartTitle env.widgetLabel)).getD "Diagramme"
    let evs := pdfEmit hp evs ("pdf", 45)
    let evs := pdfEmit hp evs ("image", 50)
    let hasImage := cr.success ∧ cr.dataUrl.isSome
    let evs := if cr.success ∧ cr.dataUrl.isSome then
        pdfEmit hp evs ("image", 60)
      else evs
    let showLeg := opts.showLegend ∧ env.extraction.success ∧
      ¬env.extraction.data.isEmpty
    let evs := if showLeg then pdfEmit hp evs ("legend", 70) else evs
    let evs := pdfEmit hp evs ("footer", 85)
    let evs := pdfEmit hp evs ("complete", 100)
    (some ⟨chartTitle, decide hasImage, env.extraction.data.length⟩, evs)

/-! ## Helper lemmas -/

theorem assocGet_set_self {β : Type} (k : String) (v : β)
    (m : List (String × β)) : assocGet (assocSet k v m) k = some v := by
  induction m with
  | nil => simp [assocGet, assocSet]
  | cons p t ih =>
    by_cases h : p.1 = k
    · simp [assocSet, assocGet, h]
    · simp only [assocSet, if_neg h]
      simpa [assocGet, List.find?, h] using ih

theorem append_ne_empty_of_left_ne_empty (a b : String) (h : a ≠ "") :
    a ++ b ≠ "" := by
  intro hab
  apply h
  have hl : (a ++ b).length = 0 := by rw [hab]; rfl
  rw [String.length_append] at hl
  have : a.length = 0 := by omega
  cases a with
  | mk l =>
    cases l with
    | nil => rfl
    | cons c t => simp [String.length, List.length] at this

/-! ## Claim C6: legend column distribution -/

theorem itemsPerColumn_pos (n c : ℕ) (hn : 1 ≤ n) (hc : 1 ≤ c) :
    1 ≤ itemsPerColumn n c := by
  unfold itemsPerColumn
  rw [Nat.one_le_div_iff (by omega)]
  omega

theorem n_le_mul_itemsPerColumn (n c : ℕ) (hc : 1 ≤ c) :
    n ≤ c * itemsPerColumn n c := by
  unfold itemsPerColumn
  have hd := Nat.div_add_mod (n + c - 1) c
  have hm : (n + c - 1) % c < c := Nat.mod_lt _ (by omega)
  set q := (n + c - 1) / c with hq
  set r := (n + c - 1) % c with hr
  have : c * q + r = n + c - 1 := hd
  set p := c * q with hp
  omega

/-- Claim C6: for a legend of `N` items rendered with `C ≥ 1` columns by
`generateProfessionalChartPdf`, the column assignment
`floor(i / ceil(N/C))` places at most `ceil(N/C)` items in any column, and
the column item counts sum to `N` (every item lands in exactly one of the
`C` columns). -/
theorem legend_column_distribution (n c : ℕ) (hc : 1 ≤ c) :
    (∀ k, legendColCount n c k ≤ itemsPerColumn n c) ∧
    (Finset.range c).sum (legendColCount n c) = n := by
  constructor
  · intro k
    rcases Nat.eq_zero_or_pos n with hn | hn
    · subst hn
      simp [legendColCount]
    · have hipc : 1 ≤ itemsPerColumn n c := itemsPerColumn_pos n c hn hc
      set ipc := itemsPerColumn n c with hipcdef
      have hsub : (Finset.range n).filter
          (fun i => legendColumnOf n c i = k) ⊆
          Finset.Ico (k * ipc) ((k + 1) * ipc) := by
        intro i hi
        simp only [Finset.mem_filter, Finset.mem_range] at hi
        obtain ⟨_, hdiv⟩ := hi
        unfold legendColumnOf at hdiv
        rw [← hipcdef] at hdiv
        simp only [Finset.mem_Ico]
        constructor
        · calc k * ipc = i / ipc * ipc := by rw [hdiv]
            _ ≤ i := Nat.div_mul_le_self i ipc
        · have h2 : i / ipc < k + 1 := by omega
          exact (Nat.div_lt_iff_lt_mul (by omega)).mp h2
      calc legendColCount n c k
          ≤ (Finset.Ico (k * ipc) ((k + 1) * ipc)).card :=
            Finset.card_le_card hsub
        _ = ipc := by rw [Nat.card_Ico]; ring_nf; omega
  · have hmap : ∀ i ∈ Finset.range n, legendColumnOf n c i ∈ Finset.range c := by
      intro i hi
      simp only [Finset.mem_range] at hi ⊢
      have hn : 1 ≤ n := by omega
      have hipc : 1 ≤ itemsPerColumn n c := itemsPerColumn_pos n c hn hc
      unfold legendColumnOf
      rw [Nat.div_lt_iff_lt_mul (by omega)]
      have hle := n_le_mul_itemsPerColumn n c hc
      calc i < n := hi
        _ ≤ c * itemsPerColumn n c := hle
        _ = c * itemsPerColumn n c := rfl
    have := Finset.card_eq_sum_card_fiberwise hmap
    simpa [legendColCount] using this.symm

/-- Claim C6 witness: 10 items over 4 columns get at most `ceil(10/4) = 3`
items per column, 10 in total. -/
theorem legend_column_distribution_witness :
    (∀ k, legendColCount 10 4 k ≤ itemsPerColumn 10 4) ∧
    (Finset.range 4).sum (legendColCount 10 4) = 10 :=
  legend_column_distribution 10 4 (by decide)

/-! ## Claim C7: download artifact names -/

/-- Claim C7 (counterexample): the claim says sanitization strips
characters outside `[a-z0-9]`; on title `"My Chart"` the code instead
produces `"My_Chart_…"` (the space replaced by an underscore), not the
`"MyChart_…"` the claim requires. -/
theorem download_name_counterexample :
    downloadPdfName "My Chart" 1700000000000 ≠
      specArtifactName "My Chart" 1700000000000 "pdf" ∧
    downloadPdfName "My Chart" 1700000000000 = "My_Chart_1700000000000.pdf" ∧
    specArtifactName "My Chart" 1700000000000 "pdf" =
      "MyChart_1700000000000.pdf" := by
  refine ⟨?_, ?_, ?_⟩ <;> decide

/-- Claim C7 (amended): downloadable artifacts are named
`{sanitizedTitle}_{epochMillis}.{ext}` where sanitization *replaces each*
character outside `[a-z0-9]` (case-insensitively) *with an underscore*
(length-preserving), keeping the in-class characters unchanged. -/
theorem download_names_sanitized (title : String) (now : ℕ) :
    downloadPdfName title now =
      sanitizeFilename title ++ "_" ++ toString now ++ ".pdf" ∧
    downloadImageName title now =
      sanitizeFilename title ++ "_" ++ toString now ++ ".png" ∧
    (sanitizeFilename title).toList.length = title.toList.length ∧
    (∀ i : ℕ, (sanitizeFilename title).toList.get? i =
      (title.toList.get? i).map
        (fun c => if isAsciiAlnum c then c else '_')) := by
  refine ⟨rfl, rfl, ?_, ?_⟩
  · simp [sanitizeFilename]
  · intro i
    simp [sanitizeFilename]

/-! ## Claim C8: widget availability predicate -/

/-- Claim C8 (counterexample): a registered widget whose manifest name is
`"Custom-ChartWidget"` is reported available (the code also accepts a
*substring* match on `"chartwidget"`), although its lowercased manifest tag
neither equals `"chart"` nor starts with `"chart"` — so availability does
not imply an exact-or-prefix match. -/
theorem chart_availability_counterexample :
    isChartWidgetAvailable
      (some [("w1", ⟨some "Custom-ChartWidget", some "widgets/custom/"⟩)])
      "w1" = true ∧
    specChartTagMatch (strLower "Custom-ChartWidget") = false := by
  constructor <;> decide

/-- Claim C8 (amended): `isChartWidgetAvailable` returns `true` only if the
widget is registered and its lowercased manifest name equals `"chart"`,
starts with `"chart"`, or contains the substring `"chartwidget"`; the
`chart-print-service` variant instead requires the widget's `uri` to
contain the substring `"chart"`. -/
theorem chart_availability_requires_match
    (reg : Option (List (String × WidgetEntry))) (id : String) :
    (isChartWidgetAvailable reg id = true →
      ∃ ws w, reg = some ws ∧ lookupWidget ws id = some w ∧
        ((w.manifestName.map strLower).getD "" = "chart" ∨
         strStartsWith ((w.manifestName.map strLower).getD "")
           "chart" = true ∨
         strHasSub ((w.manifestName.map strLower).getD "")
           "chartwidget" = true)) ∧
    (isChartWidgetAvailableSvc reg id = true →
      ∃ ws w u, reg = some ws ∧ lookupWidget ws id = some w ∧
        w.uri = some u ∧ strHasSub u "chart" = true) := by
  constructor
  · intro h
    unfold isChartWidgetAvailable at h
    split at h
    · exact absurd h (by decide)
    · rename_i ws
      split at h
      · exact absurd h (by decide)
      · cases hw : lookupWidget ws id with
        | none =>
          rw [hw] at h
          exact absurd h (by decide)
        | some w =>
          rw [hw] at h
          refine ⟨ws, w, rfl, hw, ?_⟩
          simp only [Option.some_bind] at h
          simp only [Bool.or_eq_true, decide_eq_true_eq] at h
          rcases h with (h | h) | h
          · exact Or.inl h
          · exact Or.inr (Or.inl h)
          · exact Or.inr (Or.inr h)
  · intro h
    unfold isChartWidgetAvailableSvc at h
    split at h
    · exact absurd h (by decide)
    · split at h
      · exact absurd h (by decide)
      · rename_i ws
        cases hw : lookupWidget ws id with
        | none => rw [hw] at h; exact absurd h (by decide)
        | some w =>
          rw [hw] at h
          dsimp only at h
          cases hu : w.uri with
          | none => rw [hu] at h; exact absurd h (by decide)
          | some u =>
            rw [hu] at h
            simp at h
            exact ⟨ws, w, u, rfl, hw, hu, h⟩

/-- Claim C8 witness: instantiation at a registry holding a plain
`"chart"` widget with a chart uri. -/
theorem chart_availability_requires_match_witness :
    (∃ ws w,
      (some [("a", (⟨some "chart", some "widgets/arcgis-chart/"⟩ :
          WidgetEntry))] :
        Option (List (String × WidgetEntry))) = some ws ∧
      lookupWidget ws "a" = some w ∧
      ((w.manifestName.map strLower).getD "" = "chart" ∨
       strStartsWith ((w.manifestName.map strLower).getD "")
         "chart" = true ∨
       strHasSub ((w.manifestName.map strLower).getD "")
         "chartwidget" = true)) ∧
    (∃ ws w u,
      (some [("a", (⟨some "chart", some "widgets/arcgis-chart/"⟩ :
          WidgetEntry))] :
        Option (List (String × WidgetEntry))) = some ws ∧
      lookupWidget ws "a" = some w ∧
      w.uri = some u ∧ strHasSub u "chart" = true) :=
  ⟨(chart_availability_requires_match
      (some [("a", ⟨some "chart", some "widgets/arcgis-chart/"⟩)]) "a").1
    (by decide),
   (chart_availability_requires_match
      (some [("a", ⟨some "chart", some "widgets/arcgis-chart/"⟩)]) "a").2
    (by decide)⟩

/-! ## Claim C9: element-cache liveness revalidation -/

theorem elemFreshPath_fromCache_false (env : ElemEnv) (cache : ElemCache)
    (now : ℕ) (id : String) :
    (elemFreshPath env cache now id).fromCache = false := by
  unfold elemFreshPath
  cases freshLookup env id <;> rfl

theorem getChartElementSvc_cases (env : ElemEnv) (cache : ElemCache)
    (now : ℕ) (id : String) :
    (id = "" ∧ getChartElementSvc env cache now id = ⟨none, cache, false⟩) ∨
    (∃ e ts, assocGet cache id = some (e, ts) ∧ now - ts < 30000 ∧
      env.attached e = true ∧
      getChartElementSvc env cache now id = ⟨some e, cache, true⟩) ∨
    (∃ e ts, assocGet cache id = some (e, ts) ∧ now - ts < 30000 ∧
      env.attached e = false ∧
      getChartElementSvc env cache now id =
        elemFreshPath env (assocDel cache id) now id) ∨
    ((assocGet cache id = none ∨
      ∃ e ts, assocGet cache id = some (e, ts) ∧ ¬ now - ts < 30000) ∧
     getChartElementSvc env cache now id =
       elemFreshPath env cache now id) := by
  unfold getChartElementSvc
  by_cases hid : id = ""
  · exact Or.inl ⟨hid, by rw [if_pos hid]⟩
  · rw [if_neg hid]
    cases hget : assocGet cache id with
    | none => exact Or.inr (Or.inr (Or.inr ⟨Or.inl rfl, rfl⟩))
    | some p =>
      obtain ⟨e, ts⟩ := p
      by_cases httl : now - ts < 30000
      · by_cases hatt : env.attached e = true
        · refine Or.inr (Or.inl ⟨e, ts, rfl, httl, hatt, ?_⟩)
          simp [httl, hatt]
        · rw [Bool.not_eq_true] at hatt
          refine Or.inr (Or.inr (Or.inl ⟨e, ts, rfl, httl, hatt, ?_⟩))
          simp [httl, hatt]
      · refine Or.inr (Or.inr (Or.inr ⟨Or.inr ⟨e, ts, rfl, httl⟩, ?_⟩))
        simp [httl]

theorem getChartElementWu_cases (wenv : WuEnv) (cache : ElemCache)
    (now : ℕ) (id : String) :
    (∃ e, getCachedElement cache id now = some e ∧
      wenv.attached e = true ∧
      getChartElementWu wenv cache now id = ⟨some e, cache, true⟩) ∨
    ((getCachedElement cache id now = none ∨
      ∃ e, getCachedElement cache id now = some e ∧
        wenv.attached e = false) ∧
     ((∃ e2, wenv.fresh = some e2 ∧
        getChartElementWu wenv cache now id =
          ⟨some e2, assocSet id (e2, now) cache, false⟩) ∨
      (wenv.fresh = none ∧
        getChartElementWu wenv cache now id = ⟨none, cache, false⟩))) := by
  unfold getChartElementWu
  cases hget : getCachedElement cache id now with
  | none =>
    refine Or.inr ⟨Or.inl rfl, ?_⟩
    cases hf : wenv.fresh with
    | none => exact Or.inr ⟨rfl, rfl⟩
    | some e2 => exact Or.inl ⟨e2, rfl, rfl⟩
  | some e =>
    by_cases hatt : wenv.attached e = true
    · exact Or.inl ⟨e, rfl, hatt, by simp [hatt]⟩
    · rw [Bool.not_eq_true] at hatt
      refine Or.inr ⟨Or.inr ⟨e, rfl, hatt⟩, ?_⟩
      cases hf : wenv.fresh with
      | none => exact Or.inr ⟨rfl, by simp [hatt, hf]⟩
      | some e2 => exact Or.inl ⟨e2, rfl, by simp [hatt, hf]⟩

theorem getCachedElement_of_entry (cache : ElemCache) (id : String)
    (now e ts : ℕ) (hget : assocGet cache id = some (e, ts))
    (httl : now - ts < 30000) :
    getCachedElement cache id now = some e := by
  unfold getCachedElement
  rw [hget]
  simp [httl]

/-- Claim C9: every read path of the element cache re-validates document
attachment: (1) and (2): in both `getChartElement` implementations a
cache-served element is attached; (3): in the `chart-print-service`
variant a within-TTL but detached entry is deleted and the whole lookup
cascade rerun on a cache without it; (4): in the `widget-utils` variant a
within-TTL but detached entry is never returned — the result is exactly
the non-cached lookup. -/
theorem element_cache_read_validates :
    (∀ (env : ElemEnv) (cache : ElemCache) (now : ℕ) (id : String),
      (getChartElementSvc env cache now id).fromCache = true →
      ∃ a, (getChartElementSvc env cache now id).result = some a ∧
        env.attached a = true) ∧
    (∀ (wenv : WuEnv) (cache : ElemCache) (now : ℕ) (id : String),
      (getChartElementWu wenv cache now id).fromCache = true →
      ∃ a, (getChartElementWu wenv cache now id).result = some a ∧
        wenv.attached a = true) ∧
    (∀ (env : ElemEnv) (cache : ElemCache) (now : ℕ) (id : String)
      (e ts : ℕ),
      id ≠ "" → assocGet cache id = some (e, ts) → now - ts < 30000 →
      env.attached e = false →
      getChartElementSvc env cache now id =
        elemFreshPath env (assocDel cache id) now id) ∧
    (∀ (wenv : WuEnv) (cache : ElemCache) (now : ℕ) (id : String)
      (e ts : ℕ),
      assocGet cache id = some (e, ts) → now - ts < 30000 →
      wenv.attached e = false →
      (getChartElementWu wenv cache now id).result = wenv.fresh ∧
      (getChartElementWu wenv cache now id).fromCache = false) := by
  refine ⟨?_, ?_, ?_, ?_⟩
  · intro env cache now id h
    rcases getChartElementSvc_cases env cache now id with
      ⟨_, heq⟩ | ⟨e, ts, _, _, hatt, heq⟩ | ⟨e, ts, _, _, _, heq⟩ |
      ⟨_, heq⟩
    · rw [heq] at h; simp at h
    · exact ⟨e, by rw [heq], hatt⟩
    · rw [heq, elemFreshPath_fromCache_false] at h
      exact absurd h (by decide)
    · rw [heq, elemFreshPath_fromCache_false] at h
      exact absurd h (by decide)
  · intro wenv cache now id h
    rcases getChartElementWu_cases wenv cache now id with
      ⟨e, _, hatt, heq⟩ | ⟨_, ⟨e2, _, heq⟩ | ⟨_, heq⟩⟩
    · exact ⟨e, by rw [heq], hatt⟩
    · rw [heq] at h; simp at h
    · rw [heq] at h; simp at h
  · intro env cache now id e ts hid hget httl hatt
    rcases getChartElementSvc_cases env cache now id with
      ⟨hid2, _⟩ | ⟨e2, ts2, hget2, _, hatt2, _⟩ |
      ⟨e2, ts2, hget2, _, _, heq⟩ | ⟨hcond, _⟩
    · exact absurd hid2 hid
    · rw [hget] at hget2
      have hp : e = e2 ∧ ts = ts2 := by simpa using hget2
      rw [← hp.1, hatt] at hatt2
      exact absurd hatt2 (by decide)
    · exact heq
    · rcases hcond with hnone | ⟨e2, ts2, hget2, httl2⟩
      · rw [hget] at hnone; simp at hnone
      · rw [hget] at hget2
        have hp : e = e2 ∧ ts = ts2 := by simpa using hget2
        exact absurd (hp.2 ▸ httl) httl2
  · intro wenv cache now id e ts hget httl hatt
    have hce := getCachedElement_of_entry cache id now e ts hget httl
    rcases getChartElementWu_cases wenv cache now id with
      ⟨e2, hce2, hatt2, heq⟩ | ⟨_, ⟨e2, hf, heq⟩ | ⟨hf, heq⟩⟩
    · rw [hce] at hce2
      have he : e = e2 := by simpa using hce2
      rw [← he, hatt] at hatt2
      exact absurd hatt2 (by decide)
    · rw [heq, hf]; exact ⟨rfl, rfl⟩
    · rw [heq, hf]; exact ⟨rfl, rfl⟩

/-- Claim C9 witness: a concrete cache holding a detached element within
TTL; the service lookup falls back to the cascade on the evicted cache and
the widget-utils lookup returns its fresh result. -/
theorem element_cache_read_validates_witness :
    getChartElementSvc ⟨fun _ => false, [], [], []⟩ [("w", (7, 0))] 100 "w" =
      elemFreshPath ⟨fun _ => false, [], [], []⟩
        (assocDel [("w", (7, 0))] "w") 100 "w" ∧
    ((getChartElementWu ⟨fun _ => false, some 9⟩ [("w", (7, 0))] 100 "w").result
        = some 9 ∧
      (getChartElementWu ⟨fun _ => false, some 9⟩
        [("w", (7, 0))] 100 "w").fromCache = false) :=
  ⟨element_cache_read_validates.2.2.1 ⟨fun _ => false, [], [], []⟩
      [("w", (7, 0))] 100 "w" 7 0 (by decide) rfl (by decide) rfl,
   element_cache_read_validates.2.2.2 ⟨fun _ => false, some 9⟩
      [("w", (7, 0))] 100 "w" 7 0 rfl (by decide) rfl⟩

/-! ## Claims C2, C4, C10: the capture engine -/

theorem captureChartAsImage_cases (env : CaptureEnv) (cache : CaptureCache)
    (now : ℕ) (id : String) (opts : CaptureOpts) (force : Bool) :
    (∃ r, (if force then none else getCachedCapture cache id now) = some r ∧
      captureChartAsImage env cache now id opts force = ⟨r, cache, false⟩) ∨
    ((if force then none else getCachedCapture cache id now) = none ∧
     ((env.widgetAvailable = false ∧
        captureChartAsImage env cache now id opts force =
          ⟨⟨false, none, none, none,
            some ("Widget Chart non trouvé dans appConfig: " ++ id)⟩,
           cache, false⟩) ∨
      (env.widgetAvailable = true ∧ env.elementFound = false ∧
        captureChartAsImage env cache now id opts force =
          ⟨⟨false, none, none, none,
            some ("Élément DOM du Chart non trouvé: " ++ id)⟩,
           cache, false⟩) ∨
      (env.widgetAvailable = true ∧ env.elementFound = true ∧
        htmlToCanvas env.raster opts = none ∧
        captureChartAsImage env cache now id opts force =
          ⟨⟨false, none, none, none,
            some "Échec de la capture du diagramme - htmlToCanvas a retourné null"⟩,
           cache, false⟩) ∨
      (∃ c e, env.widgetAvailable = true ∧ env.elementFound = true ∧
        htmlToCanvas env.raster opts = some c ∧ env.encode = .error e ∧
        captureChartAsImage env cache now id opts force =
          ⟨⟨false, none, none, none, some e⟩, cache, true⟩) ∨
      (∃ c url, env.widgetAvailable = true ∧ env.elementFound = true ∧
        htmlToCanvas env.raster opts = some c ∧ env.encode = .ok url ∧
        captureChartAsImage env cache now id opts force =
          ⟨⟨true, some url, some c.w, some c.h, none⟩,
           assocSet id (⟨true, some url, some c.w, some c.h, none⟩, now)
             cache, true⟩))) := by
  unfold captureChartAsImage
  cases hhit : (if force then none else getCachedCapture cache id now) with
  | some r => exact Or.inl ⟨r, rfl, rfl⟩
  | none =>
    refine Or.inr ⟨rfl, ?_⟩
    by_cases hav : env.widgetAvailable = true
    · by_cases hel : env.elementFound = true
      · cases hcv : htmlToCanvas env.raster opts with
        | none =>
          refine Or.inr (Or.inr (Or.inl ⟨hav, hel, rfl, ?_⟩))
          simp [hav, hel]
        | some c =>
          cases henc : env.encode with
          | error e =>
            refine Or.inr (Or.inr (Or.inr (Or.inl
              ⟨c, e, hav, hel, rfl, rfl, ?_⟩)))
            simp [hav, hel]
          | ok url =>
            refine Or.inr (Or.inr (Or.inr (Or.inr
              ⟨c, url, hav, hel, rfl, rfl, ?_⟩)))
            simp [hav, hel]
      · rw [Bool.not_eq_true] at hel
        refine Or.inr (Or.inl ⟨hav, hel, ?_⟩)
        simp [hav, hel]
    · rw [Bool.not_eq_true] at hav
      refine Or.inl ⟨hav, ?_⟩
      simp [hav]

/-- Claim C2: `captureChartAsImage` is total (the embedding threads every
throwing collaborator through it, and its `catch` converts any exception
into a result, so nothing escapes the boundary); whenever all three
rasterization techniques fail — `htmlToCanvas` returns `null` — and the
call is not short-circuited by a cache hit, it returns `success:false`
with a non-empty error string. -/
theorem capture_all_fail_reports (env : CaptureEnv) (cache : CaptureCache)
    (now : ℕ) (id : String) (opts : CaptureOpts) (force : Bool)
    (hcache : force = true ∨ getCachedCapture cache id now = none)
    (hfail : htmlToCanvas env.raster opts = none) :
    (captureChartAsImage env cache now id opts force).result.success =
      false ∧
    ∃ msg, (captureChartAsImage env cache now id opts force).result.error =
      some msg ∧ msg ≠ "" := by
  have hnohit : (if force then none else getCachedCapture cache id now) =
      none := by
    rcases hcache with hf | hnone
    · rw [hf]; rfl
    · cases force
      · simpa using hnone
      · rfl
  rcases captureChartAsImage_cases env cache now id opts force with
    ⟨r, hr, _⟩ | ⟨_, hbr⟩
  · rw [hnohit] at hr; exact absurd hr (by simp)
  · rcases hbr with ⟨_, heq⟩ | ⟨_, _, heq⟩ | ⟨_, _, _, heq⟩ |
      ⟨c, e, _, _, hcv, _, _⟩ | ⟨c, url, _, _, hcv, _, _⟩
    · rw [heq]
      exact ⟨rfl, _, rfl,
        append_ne_empty_of_left_ne_empty _ _ (by decide)⟩
    · rw [heq]
      exact ⟨rfl, _, rfl,
        append_ne_empty_of_left_ne_empty _ _ (by decide)⟩
    · rw [heq]
      exact ⟨rfl, _, rfl, by decide⟩
    · rw [hfail] at hcv; exact absurd hcv (by simp)
    · rw [hfail] at hcv; exact absurd hcv (by simp)

/-- Claim C2 witness: a run in which the existing-canvas search finds
nothing, `html2canvas` throws, and no `<svg>` is found, with an empty
capture cache. -/
theorem capture_all_fail_reports_witness :
    (captureChartAsImage
      ⟨true, true, ⟨0, 0, none, false, Except.error "boom", false, none,
        false, false⟩, Except.ok "data:"⟩
      [] 1000 "w1" ⟨none, none⟩ false).result.success = false ∧
    ∃ msg, (captureChartAsImage
      ⟨true, true, ⟨0, 0, none, false, Except.error "boom", false, none,
        false, false⟩, Except.ok "data:"⟩
      [] 1000 "w1" ⟨none, none⟩ false).result.error = some msg ∧
      msg ≠ "" :=
  capture_all_fail_reports
    ⟨true, true, ⟨0, 0, none, false, Except.error "boom", false, none,
      false, false⟩, Except.ok "data:"⟩
    [] 1000 "w1" ⟨none, none⟩ false (Or.inr rfl) rfl

/-- Claim C4: when a call populated the capture cache (it rasterized and
succeeded at time `t0`), a second call for the same identifier with
`forceRefresh:false` within the 5-second TTL returns exactly the cached
result — the identical (bit-identical `dataUrl`) value — without invoking
rasterization. -/
theorem capture_cache_idempotent (env0 env1 : CaptureEnv)
    (cache : CaptureCache) (t0 t1 : ℕ) (id : String)
    (opts0 opts1 : CaptureOpts) (f0 : Bool)
    (hsucc : (captureChartAsImage env0 cache t0 id opts0 f0).result.success
      = true)
    (hrast : (captureChartAsImage env0 cache t0 id opts0 f0).rasterized
      = true)
    (httl : t1 - t0 < 5000) :
    (captureChartAsImage env1
      (captureChartAsImage env0 cache t0 id opts0 f0).cache
      t1 id opts1 false).result =
      (captureChartAsImage env0 cache t0 id opts0 f0).result ∧
    (captureChartAsImage env1
      (captureChartAsImage env0 cache t0 id opts0 f0).cache
      t1 id opts1 false).rasterized = false := by
  rcases captureChartAsImage_cases env0 cache t0 id opts0 f0 with
    ⟨r, _, heq⟩ | ⟨_, hbr⟩
  · rw [heq] at hrast; simp at hrast
  · rcases hbr with ⟨_, heq⟩ | ⟨_, _, heq⟩ | ⟨_, _, _, heq⟩ |
      ⟨c, e, _, _, _, _, heq⟩ | ⟨c, url, _, _, _, _, heq⟩
    · rw [heq] at hrast; simp at hrast
    · rw [heq] at hrast; simp at hrast
    · rw [heq] at hrast; simp at hrast
    · rw [heq] at hsucc; simp at hsucc
    · rw [heq]
      have hcc : getCachedCapture
          (assocSet id (⟨true, some url, some c.w, some c.h, none⟩, t0)
            cache) id t1 =
          some ⟨true, some url, some c.w, some c.h, none⟩ := by
        unfold getCachedCapture
        rw [assocGet_set_self]
        simp [httl]
      constructor
      · unfold captureChartAsImage
        rw [show (if false then none else getCachedCapture
            (assocSet id (⟨true, some url, some c.w, some c.h, none⟩, t0)
              cache) id t1) = some ⟨true, some url, some c.w, some c.h,
                none⟩ from hcc]
      · unfold captureChartAsImage
        rw [show (if false then none else getCachedCapture
            (assocSet id (⟨true, some url, some c.w, some c.h, none⟩, t0)
              cache) id t1) = some ⟨true, some url, some c.w, some c.h,
                none⟩ from hcc]

/-- Claim C4 witness: a first call that rasterizes an existing canvas and
succeeds at `t0 = 1000`; the second call at `t1 = 2000` returns the same
result from the cache. -/
theorem capture_cache_idempotent_witness :
    (captureChartAsImage
      ⟨false, false, ⟨0, 0, none, false, Except.error "e", false, none,
        false, false⟩, Except.error "e"⟩
      (captureChartAsImage
        ⟨true, true, ⟨500, 400, some ⟨500, 400⟩, true, Except.error "e",
          false, none, false, false⟩, Except.ok "data:img"⟩
        [] 1000 "w1" ⟨none, none⟩ false).cache
      2000 "w1" ⟨none, none⟩ false).result =
      (captureChartAsImage
        ⟨true, true, ⟨500, 400, some ⟨500, 400⟩, true, Except.error "e",
          false, none, false, false⟩, Except.ok "data:img"⟩
        [] 1000 "w1" ⟨none, none⟩ false).result ∧
    (captureChartAsImage
      ⟨false, false, ⟨0, 0, none, false, Except.error "e", false, none,
        false, false⟩, Except.error "e"⟩
      (captureChartAsImage
        ⟨true, true, ⟨500, 400, some ⟨500, 400⟩, true, Except.error "e",
          false, none, false, false⟩, Except.ok "data:img"⟩
        [] 1000 "w1" ⟨none, none⟩ false).cache
      2000 "w1" ⟨none, none⟩ false).rasterized = false :=
  capture_cache_idempotent
    ⟨true, true, ⟨500, 400, some ⟨500, 400⟩, true, Except.error "e",
      false, none, false, false⟩, Except.ok "data:img"⟩
    ⟨false, false, ⟨0, 0, none, false, Except.error "e", false, none,
      false, false⟩, Except.error "e"⟩
    [] 1000 2000 "w1" ⟨none, none⟩ ⟨none, none⟩ false
    (by decide) (by decide) (by decide)

/-- Claim C10: a `captureChartAsImage` run that ends with `success:false`
leaves the capture cache exactly as it found it — failed results are never
written to the cache (only the success branch performs the cache `set`),
so a failure can never be served from the cache to a later call. -/
theorem capture_failure_not_cached (env : CaptureEnv)
    (cache : CaptureCache) (now : ℕ) (id : String) (opts : CaptureOpts)
    (force : Bool)
    (hfail : (captureChartAsImage env cache now id opts force).result.success
      = false) :
    (captureChartAsImage env cache now id opts force).cache = cache := by
  rcases captureChartAsImage_cases env cache now id opts force with
    ⟨r, _, heq⟩ | ⟨_, hbr⟩
  · rw [heq]
  · rcases hbr with ⟨_, heq⟩ | ⟨_, _, heq⟩ | ⟨_, _, _, heq⟩ |
      ⟨c, e, _, _, _, _, heq⟩ | ⟨c, url, _, _, _, _, heq⟩
    · rw [heq]
    · rw [heq]
    · rw [heq]
    · rw [heq]
    · rw [heq] at hfail; simp at hfail

/-- Claim C10 witness: a failing capture (unavailable widget) over a
non-empty cache leaves the cache untouched. -/
theorem capture_failure_not_cached_witness :
    (captureChartAsImage
      ⟨false, false, ⟨0, 0, none, false, Except.error "e", false, none,
        false, false⟩, Except.error "e"⟩
      [("other", (⟨true, some "u", some 1, some 1, none⟩, 0))]
      9000 "w1" ⟨none, none⟩ false).cache =
      [("other", (⟨true, some "u", some 1, some 1, none⟩, 0))] :=
  capture_failure_not_cached
    ⟨false, false, ⟨0, 0, none, false, Except.error "e", false, none,
      false, false⟩, Except.error "e"⟩
    [("other", (⟨true, some "u", some 1, some 1, none⟩, 0))]
    9000 "w1" ⟨none, none⟩ false (by decide)

/-! ## Aggregation-map lemmas (for claims C1 and C3) -/

theorem keys_upsert (k : JsVal) (v : ℚ) (m : List (JsVal × ℚ)) :
    (upsert k v m).map Prod.fst =
      if k ∈ m.map Prod.fst then m.map Prod.fst
      else m.map Prod.fst ++ [k] := by
  induction m with
  | nil => simp [upsert]
  | cons p t ih =>
    by_cases h : k = p.1
    · simp [upsert, h]
    · simp only [upsert, if_neg h, List.map_cons, ih]
      by_cases hm : k ∈ t.map Prod.fst
      · simp [hm, h]
      · simp [hm, h]

theorem nodup_keys_upsert (k : JsVal) (v : ℚ) (m : List (JsVal × ℚ))
    (h : (m.map Prod.fst).Nodup) :
    ((upsert k v m).map Prod.fst).Nodup := by
  rw [keys_upsert]
  by_cases hm : k ∈ m.map Prod.fst
  · simpa [hm] using h
  · simp only [hm, if_false]
    rw [List.nodup_append]
    exact ⟨h, List.nodup_singleton k,
      by rw [List.disjoint_singleton]; exact hm⟩

theorem mem_keys_upsert (a k : JsVal) (v : ℚ) (m : List (JsVal × ℚ)) :
    (a ∈ (upsert k v m).map Prod.fst ↔ a ∈ m.map Prod.fst ∨ a = k) := by
  rw [keys_upsert]
  by_cases hm : k ∈ m.map Prod.fst
  · simp only [hm, if_true]
    exact ⟨Or.inl, fun h => h.elim id (fun he => he ▸ hm)⟩
  · simp [hm, List.mem_append]

theorem lookupV_cons (p : JsVal × ℚ) (t : List (JsVal × ℚ)) (k : JsVal) :
    lookupV k (p :: t) = if p.1 = k then p.2 else lookupV k t := by
  by_cases h : p.1 = k
  · simp [lookupV, List.find?, h]
  · simp [lookupV, List.find?, h]

theorem upsert_cons_self (k : JsVal) (v : ℚ) (p : JsVal × ℚ)
    (t : List (JsVal × ℚ)) (h : k = p.1) :
    upsert k v (p :: t) = (p.1, p.2 + v) :: t := by
  simp [upsert, h]

theorem upsert_cons_ne (k : JsVal) (v : ℚ) (p : JsVal × ℚ)
    (t : List (JsVal × ℚ)) (h : ¬ k = p.1) :
    upsert k v (p :: t) = p :: upsert k v t := by
  simp [upsert, h]

theorem lookupV_upsert_self (k : JsVal) (v : ℚ) (m : List (JsVal × ℚ)) :
    lookupV k (upsert k v m) = lookupV k m + v := by
  induction m with
  | nil => simp [upsert, lookupV, List.find?]
  | cons p t ih =>
    by_cases h : k = p.1
    · rw [upsert_cons_self k v p t h, lookupV_cons, lookupV_cons]
      simp [h.symm]
    · rw [upsert_cons_ne k v p t h, lookupV_cons, lookupV_cons]
      by_cases h2 : p.1 = k
      · exact absurd h2.symm h
      · simp only [h2, if_false]
        exact ih

theorem lookupV_upsert_ne (a k : JsVal) (v : ℚ) (m : List (JsVal × ℚ))
    (h : a ≠ k) : lookupV a (upsert k v m) = lookupV a m := by
  induction m with
  | nil =>
    rw [show upsert k v [] = [(k, v)] from rfl, lookupV_cons]
    rw [if_neg (fun he => h he.symm)]
  | cons p t ih =>
    by_cases hp : k = p.1
    · rw [upsert_cons_self k v p t hp, lookupV_cons, lookupV_cons]
      by_cases ha : p.1 = a
      · exact absurd (hp.trans ha).symm h
      · simp [ha]
    · rw [upsert_cons_ne k v p t hp, lookupV_cons, lookupV_cons, ih]

theorem sum_upsert (k : JsVal) (v : ℚ) (m : List (JsVal × ℚ)) :
    ((upsert k v m).map Prod.snd).sum = (m.map Prod.snd).sum + v := by
  induction m with
  | nil => simp [upsert]
  | cons p t ih =>
    by_cases h : k = p.1
    · simp [upsert, h]
      ring
    · simp only [upsert, if_neg h, List.map_cons, List.sum_cons, ih]
      ring

theorem aggPairsFrom_nil (m : List (JsVal × ℚ)) : aggPairsFrom m [] = m :=
  rfl

theorem aggPairsFrom_cons (m : List (JsVal × ℚ)) (p : JsVal × ℚ)
    (l : List (JsVal × ℚ)) :
    aggPairsFrom m (p :: l) = aggPairsFrom (upsert p.1 p.2 m) l := rfl

theorem nodup_keys_aggPairsFrom (l : List (JsVal × ℚ)) :
    ∀ m, (m.map Prod.fst).Nodup →
      ((aggPairsFrom m l).map Prod.fst).Nodup := by
  induction l with
  | nil => intro m h; exact h
  | cons p t ih =>
    intro m h
    rw [aggPairsFrom_cons]
    exact ih _ (nodup_keys_upsert _ _ _ h)

theorem sum_aggPairsFrom (l : List (JsVal × ℚ)) :
    ∀ m, ((aggPairsFrom m l).map Prod.snd).sum =
      (m.map Prod.snd).sum + (l.map Prod.snd).sum := by
  induction l with
  | nil => intro m; simp [aggPairsFrom_nil]
  | cons p t ih =>
    intro m
    rw [aggPairsFrom_cons, ih, sum_upsert]
    simp
    ring

theorem mem_keys_aggPairsFrom (l : List (JsVal × ℚ)) :
    ∀ m a, (a ∈ (aggPairsFrom m l).map Prod.fst ↔
      a ∈ m.map Prod.fst ∨ a ∈ l.map Prod.fst) := by
  induction l with
  | nil => intro m a; simp [aggPairsFrom_nil]
  | cons p t ih =>
    intro m a
    rw [aggPairsFrom_cons, ih, mem_keys_upsert]
    simp only [List.map_cons, List.mem_cons]
    tauto

theorem lookupV_aggPairsFrom (l : List (JsVal × ℚ)) :
    ∀ m k, lookupV k (aggPairsFrom m l) =
      lookupV k m + ((l.filter (fun p => p.1 = k)).map Prod.snd).sum := by
  induction l with
  | nil => intro m k; simp [aggPairsFrom_nil]
  | cons p t ih =>
    intro m k
    rw [aggPairsFrom_cons, ih]
    by_cases h : p.1 = k
    · rw [List.filter_cons, if_pos (by simp [h]), List.map_cons,
        List.sum_cons]
      rw [show upsert p.1 p.2 m = upsert k p.2 m from by rw [h]]
      rw [lookupV_upsert_self]
      ring
    · rw [List.filter_cons, if_neg (by simp [h])]
      rw [lookupV_upsert_ne k p.1 p.2 m (fun he => h he.symm)]

theorem lookupV_of_mem_nodup (m : List (JsVal × ℚ)) (k : JsVal) (v : ℚ)
    (hnd : (m.map Prod.fst).Nodup) (hm : (k, v) ∈ m) :
    lookupV k m = v := by
  induction m with
  | nil => cases hm
  | cons p t ih =>
    rcases List.mem_cons.mp hm with he | ht
    · rw [← he, lookupV_cons]
      simp
    · have hk : k ∈ t.map Prod.fst :=
        List.mem_map.mpr ⟨(k, v), ht, rfl⟩
      have hne : ¬ p.1 = k := by
        intro he2
        have := (List.nodup_cons.mp hnd).1
        exact this (he2 ▸ hk)
      rw [lookupV_cons, if_neg hne]
      exact ih (List.nodup_cons.mp hnd).2 ht

theorem filterMap_eq_map_of_forall_some {α β : Type} (l : List α)
    (f : α → Option β) (g : α → β) (h : ∀ x ∈ l, f x = some (g x)) :
    l.filterMap f = l.map g := by
  induction l with
  | nil => rfl
  | cons x t ih =>
    have hx := h x (List.mem_cons_self x t)
    have ht : ∀ y ∈ t, f y = some (g y) :=
      fun y hy => h y (List.mem_cons_of_mem x hy)
    rw [List.filterMap_cons, hx, List.map_cons, ih ht]

/-! ## Sorting lemmas (for claims C1 and C3) -/

theorem insertCmp_perm {α : Type} (le : α → α → Bool) (x : α)
    (l : List α) : (insertCmp le x l).Perm (x :: l) := by
  induction l with
  | nil => exact List.Perm.refl _
  | cons y ys ih =>
    unfold insertCmp
    by_cases h : le x y = true
    · rw [if_pos h]
    · rw [if_neg h]
      exact (List.Perm.cons y ih).trans (List.Perm.swap x y ys)

theorem sortCmp_perm {α : Type} (le : α → α → Bool) (l : List α) :
    (sortCmp le l).Perm l := by
  induction l with
  | nil => exact List.Perm.refl _
  | cons x xs ih =>
    unfold sortCmp
    exact (insertCmp_perm le x (sortCmp le xs)).trans
      (List.Perm.cons x ih)

theorem insertCmp_cons {α : Type} (le : α → α → Bool) (x y : α)
    (ys : List α) :
    insertCmp le x (y :: ys) =
      if le x y = true then x :: y :: ys else y :: insertCmp le x ys :=
  rfl

theorem chain'_insertCmp {α : Type} (le : α → α → Bool)
    (htot : ∀ a b, le a b = false → le b a = true) (x : α) :
    ∀ l : List α, List.Chain' (fun a b => le a b = true) l →
      List.Chain' (fun a b => le a b = true) (insertCmp le x l) := by
  intro l
  induction l with
  | nil => intro _; simp [insertCmp]
  | cons y ys ih =>
    intro h
    rw [insertCmp_cons]
    by_cases hxy : le x y = true
    · rw [if_pos hxy]
      exact List.chain'_cons.mpr ⟨hxy, h⟩
    · rw [if_neg hxy]
      have hyx : le y x = true :=
        htot x y (Bool.not_eq_true _ ▸ hxy)
      have hys : List.Chain' (fun a b => le a b = true) ys := h.tail
      have hins := ih hys
      cases ys with
      | nil =>
        rw [show insertCmp le x [] = [x] from rfl]
        exact List.chain'_cons.mpr ⟨hyx, List.chain'_singleton x⟩
      | cons z zs =>
        rw [insertCmp_cons]
        by_cases hxz : le x z = true
        · rw [if_pos hxz]
          exact List.chain'_cons.mpr ⟨hyx,
            List.chain'_cons.mpr ⟨hxz, hys⟩⟩
        · rw [if_neg hxz]
          have hyz : le y z = true := (List.chain'_cons.mp h).1
          have hins2 : List.Chain' (fun a b => le a b = true)
              (z :: insertCmp le x zs) := by
            rw [insertCmp_cons, if_neg hxz] at hins
            exact hins
          exact List.chain'_cons.mpr ⟨hyz, hins2⟩

theorem chain'_sortCmp {α : Type} (le : α → α → Bool)
    (htot : ∀ a b, le a b = false → le b a = true) (l : List α) :
    List.Chain' (fun a b => le a b = true) (sortCmp le l) := by
  induction l with
  | nil => simp [sortCmp]
  | cons x xs ih =>
    unfold sortCmp
    exact chain'_insertCmp le htot x (sortCmp le xs) ih

theorem charListLE_total :
    ∀ a b : List Char, charListLE a b = false → charListLE b a = true := by
  intro a
  induction a with
  | nil =>
    intro b h
    cases b <;> simp [charListLE] at h
  | cons c cs ih =>
    intro b h
    cases b with
    | nil => rfl
    | cons d ds =>
      unfold charListLE at h ⊢
      by_cases h1 : c.toNat < d.toNat
      · rw [if_pos h1] at h
        simp at h
      · rw [if_neg h1] at h
        by_cases h2 : d.toNat < c.toNat
        · rw [if_pos h2] at h
          rw [if_pos h2]
        · rw [if_neg h2] at h
          rw [if_neg h2, if_neg h1]
          exact ih ds h

theorem cmpLE_total : ∀ a b : JsVal, cmpLE a b = false → cmpLE b a = true := by
  intro a b h
  cases a with
  | num x =>
    cases b with
    | num y =>
      simp only [cmpLE, decide_eq_false_iff_not] at h
      simp only [cmpLE, decide_eq_true_eq]
      exact le_of_not_le h
    | str s => exact charListLE_total _ _ h
    | jsNull => exact charListLE_total _ _ h
  | str s =>
    cases b with
    | num y => exact charListLE_total _ _ h
    | str t => exact charListLE_total _ _ h
    | jsNull => exact charListLE_total _ _ h
  | jsNull =>
    cases b with
    | num y => exact charListLE_total _ _ h
    | str t => exact charListLE_total _ _ h
    | jsNull => exact charListLE_total _ _ h

theorem chartRecLE_total :
    ∀ a b : ChartRec, cmpLE a.category b.category = false →
      cmpLE b.category a.category = true :=
  fun a b h => cmpLE_total a.category b.category h

/-! ## Claim C3: distinctness of categories -/

/-- Claim C3 (counterexample): the DOM-parsing strategy performs no
aggregation — a chart whose legend has two items labelled `"A"` yields a
*successful* extraction whose two records share the category `"A"`, so
categories are not pairwise distinct across all strategies. -/
theorem dom_extraction_duplicate_categories :
    (extractChartDataFromDOM ⟨true, "T", "pie",
      [⟨some "A", none, none, none⟩, ⟨some "A", none, none, none⟩],
      [], []⟩).success = true ∧
    ¬ (((extractChartDataFromDOM ⟨true, "T", "pie",
      [⟨some "A", none, none, none⟩, ⟨some "A", none, none, none⟩],
      [], []⟩).data).map DomChartRec.category).Nodup := by
  constructor
  · decide
  · decide

/-- Claim C3 (amended): extraction results produced by the query-engine
strategy (`extractChartData`, which aggregates by category into a map)
always have pairwise-distinct category values; the DOM-parsing strategy
does not deduplicate and can repeat categories. -/
theorem query_extraction_categories_distinct (cf vf : Option String)
    (records : List RecData) :
    (((extractChartDataCore cf vf records).1).map ChartRec.category).Nodup := by
  have h1 : ∀ (acf avf : Option String),
      ((aggregateAndSort acf avf records).map ChartRec.category).Nodup := by
    intro acf avf
    unfold aggregateAndSort
    set m := aggregateRecords acf avf records with hm
    have hknd : (m.map Prod.fst).Nodup := by
      rw [hm]
      unfold aggregateRecords aggPairs
      exact nodup_keys_aggPairsFrom _ [] (by simp)
    have hperm := sortCmp_perm (fun a b => cmpLE a.category b.category)
      (m.map (fun p => (⟨p.1, p.2, jsToString p.1⟩ : ChartRec)))
    have hmap := hperm.map ChartRec.category
    have hnd2 : ((m.map (fun p =>
        (⟨p.1, p.2, jsToString p.1⟩ : ChartRec))).map
          ChartRec.category).Nodup := by
      rw [List.map_map]
      exact hknd
    exact hmap.symm.nodup hnd2
  exact h1 _ _

/-! ## Claim C1: aggregation correctness of `extractChartData` -/

theorem mem_map_fst_of_getField_some (r : RecData) (f : String) (x : JsVal)
    (h : getField r f = some x) : f ∈ r.map (fun p => p.1) := by
  unfold getField at h
  cases hf : r.find? (fun p => p.1 = f) with
  | none => rw [hf] at h; cases h
  | some p =>
    have hmem : p ∈ r := List.mem_of_find?_eq_some hf
    have hpf : p.1 = f := by
      have := List.find?_some hf
      simpa using this
    exact List.mem_map.mpr ⟨p, hmem, hpf⟩

theorem detectFields_known (c v : String) (r0 : RecData)
    (rest : List RecData) (hc0 : c ≠ "") (hv0 : v ≠ "")
    (hcf : c ∈ r0.map (fun p => p.1)) (hvf : v ∈ r0.map (fun p => p.1)) :
    detectFields (some c) (some v) (r0 :: rest) = (some c, some v) := by
  unfold detectFields fieldKnown
  simp [hc0, hv0, hcf, hvf]

theorem recPair_eq (c v : String) (r : RecData) (cat : JsVal) (q : ℚ)
    (hc : getField r c = some cat) (hnn : cat ≠ JsVal.jsNull)
    (hv : getField r v = some (JsVal.num q)) :
    recPair (some c) (some v) r = some (cat, q) := by
  unfold recPair getFieldO
  rw [Option.some_bind, Option.some_bind, hc, hv]
  cases cat with
  | jsNull => exact absurd rfl hnn
  | num x => simp [parseFloatOr0, jsParseFloat]
  | str s => simp [parseFloatOr0, jsParseFloat]

section

attribute [local semireducible] Rat.add

/-- Claim C1: for every extraction input whose source records all carry
the declared category field (with a non-`null` value `catOf r`) and the
declared value field (with a numeric value `rawOf r`), the aggregation
core of `extractChartData` keeps the declared fields, returns one
`ChartDataRecord` per distinct source category, each record's value being
the sum of the raw value-field values of the records in that category,
preserves the grand total, and sorts ascending by the numeric-or-string
category comparator; in particular, on the records
`[{year:2020,sales:10},{year:2020,sales:5},{year:2021,sales:7}]` with
fields `"year"`/`"sales"` it returns
`[{category:2020,value:15},{category:2021,value:7}]`. -/
theorem extractChartData_aggregation :
    (∀ (c v : String) (records : List RecData)
      (catOf : RecData → JsVal) (rawOf : RecData → ℚ),
      records ≠ [] → c ≠ "" → v ≠ "" →
      (∀ r ∈ records, getField r c = some (catOf r) ∧
        catOf r ≠ JsVal.jsNull) →
      (∀ r ∈ records, getField r v = some (JsVal.num (rawOf r))) →
      ((extractChartDataCore (some c) (some v) records).2 =
        (some c, some v)) ∧
      (((extractChartDataCore (some c) (some v) records).1).map
        ChartRec.category).Nodup ∧
      (∀ a, a ∈ ((extractChartDataCore (some c) (some v) records).1).map
          ChartRec.category ↔ a ∈ records.map catOf) ∧
      (∀ rec ∈ (extractChartDataCore (some c) (some v) records).1,
        rec.value = ((records.filter
          (fun r => catOf r = rec.category)).map rawOf).sum) ∧
      (((extractChartDataCore (some c) (some v) records).1).map
        ChartRec.value).sum = (records.map rawOf).sum ∧
      List.Chain' (fun a b => cmpLE a.category b.category = true)
        (extractChartDataCore (some c) (some v) records).1) ∧
    extractChartDataCore (some "year") (some "sales")
      [[("year", JsVal.num 2020), ("sales", JsVal.num 10)],
       [("year", JsVal.num 2020), ("sales", JsVal.num 5)],
       [("year", JsVal.num 2021), ("sales", JsVal.num 7)]] =
      ([⟨JsVal.num 2020, 15, "2020"⟩, ⟨JsVal.num 2021, 7, "2021"⟩],
       some "year", some "sales") := by
  constructor
  · intro c v records catOf rawOf hne hc0 hv0 hcat hval
    cases records with
    | nil => exact absurd rfl hne
    | cons r0 rest =>
    have hr0 : r0 ∈ r0 :: rest := List.mem_cons_self r0 rest
    have hdet : detectFields (some c) (some v) (r0 :: rest) =
        (some c, some v) :=
      detectFields_known c v r0 rest hc0 hv0
        (mem_map_fst_of_getField_some r0 c (catOf r0) (hcat r0 hr0).1)
        (mem_map_fst_of_getField_some r0 v (JsVal.num (rawOf r0))
          (hval r0 hr0))
    have hcore2 : (extractChartDataCore (some c) (some v)
        (r0 :: rest)).2 = (some c, some v) := by
      simp [extractChartDataCore, hdet]
    have hcore1 : (extractChartDataCore (some c) (some v)
        (r0 :: rest)).1 = aggregateAndSort (some c) (some v)
        (r0 :: rest) := by
      simp [extractChartDataCore, hdet]
    have hpair : (r0 :: rest).filterMap (recPair (some c) (some v)) =
        (r0 :: rest).map (fun r => (catOf r, rawOf r)) :=
      filterMap_eq_map_of_forall_some _ _ _
        (fun r hr => recPair_eq c v r (catOf r) (rawOf r)
          (hcat r hr).1 (hcat r hr).2 (hval r hr))
    have hagg : aggregateRecords (some c) (some v) (r0 :: rest) =
        aggPairs ((r0 :: rest).map (fun r => (catOf r, rawOf r))) := by
      unfold aggregateRecords
      rw [hpair]
    set pairs := (r0 :: rest).map (fun r => (catOf r, rawOf r))
      with hpairs
    set m := aggPairs pairs with hmdef
    have hknd : (m.map Prod.fst).Nodup :=
      nodup_keys_aggPairsFrom pairs [] (by simp)
    have hkmem : ∀ a, a ∈ m.map Prod.fst ↔ a ∈ (r0 :: rest).map catOf := by
      intro a
      rw [hmdef]
      unfold aggPairs
      rw [mem_keys_aggPairsFrom]
      simp only [List.map_nil, List.not_mem_nil, false_or]
      rw [hpairs, List.map_map]
      exact Iff.rfl
    have hvalm : ∀ k val, (k, val) ∈ m →
        val = (((r0 :: rest).filter
          (fun r => catOf r = k)).map rawOf).sum := by
      intro k val hmem
      have h1 : lookupV k m = val := lookupV_of_mem_nodup m k val hknd hmem
      have h2 := lookupV_aggPairsFrom pairs [] k
      have h3 : ((pairs.filter (fun p => p.1 = k)).map Prod.snd) =
          (((r0 :: rest).filter (fun r => catOf r = k)).map rawOf) := by
        rw [hpairs, List.filter_map, List.map_map]
        rfl
      rw [show aggPairsFrom [] pairs = m from by rw [hmdef]; unfold aggPairs; rfl] at h2
      rw [h1, h3] at h2
      simpa [lookupV] using h2
    have hsum : (m.map Prod.snd).sum = ((r0 :: rest).map rawOf).sum := by
      have h4 := sum_aggPairsFrom pairs []
      rw [show aggPairsFrom [] pairs = m from by rw [hmdef]; unfold aggPairs; rfl] at h4
      rw [h4]
      simp only [List.map_nil, List.sum_nil, zero_add]
      rw [hpairs, List.map_map]
      rfl
    have hout : (extractChartDataCore (some c) (some v) (r0 :: rest)).1 =
        sortCmp (fun a b => cmpLE a.category b.category)
          (m.map (fun p => (⟨p.1, p.2, jsToString p.1⟩ : ChartRec))) := by
      rw [hcore1]
      unfold aggregateAndSort
      rw [hagg]
    have hperm := sortCmp_perm
      (fun a b => cmpLE a.category b.category)
      (m.map (fun p => (⟨p.1, p.2, jsToString p.1⟩ : ChartRec)))
    have hcatmap : ((m.map (fun p =>
        (⟨p.1, p.2, jsToString p.1⟩ : ChartRec))).map
          ChartRec.category) = m.map Prod.fst := by
      rw [List.map_map]
      rfl
    refine ⟨hcore2, ?_, ?_, ?_, ?_, ?_⟩
    · rw [hout]
      exact (hperm.map ChartRec.category).symm.nodup
        (by rw [hcatmap]; exact hknd)
    · intro a
      rw [hout, (hperm.map ChartRec.category).mem_iff, hcatmap]
      exact hkmem a
    · intro rec hrec
      rw [hout] at hrec
      have hrec2 := hperm.mem_iff.mp hrec
      obtain ⟨p, hp, hpe⟩ := List.mem_map.mp hrec2
      have hpm : (p.1, p.2) ∈ m := by
        rw [Prod.mk.eta]
        exact hp
      have h5 := hvalm p.1 p.2 hpm
      rw [← hpe]
      exact h5
    · rw [hout, (hperm.map ChartRec.value).sum_eq, List.map_map]
      exact hsum
    · rw [hout]
      exact chain'_sortCmp _ chartRecLE_total _
  · decide

/-- Claim C1 witness: the scenario-1 records instantiate every hypothesis
(with the category and raw-value reader functions spelled out), and the
aggregation properties hold of the computed result. -/
theorem extractChartData_aggregation_witness :
    ((extractChartDataCore (some "year") (some "sales")
      [[("year", JsVal.num 2020), ("sales", JsVal.num 10)],
       [("year", JsVal.num 2020), ("sales", JsVal.num 5)],
       [("year", JsVal.num 2021), ("sales", JsVal.num 7)]]).2 =
      (some "year", some "sales")) ∧
    (((extractChartDataCore (some "year") (some "sales")
      [[("year", JsVal.num 2020), ("sales", JsVal.num 10)],
       [("year", JsVal.num 2020), ("sales", JsVal.num 5)],
       [("year", JsVal.num 2021), ("sales", JsVal.num 7)]]).1).map
        ChartRec.category).Nodup ∧
    (∀ a, a ∈ ((extractChartDataCore (some "year") (some "sales")
      [[("year", JsVal.num 2020), ("sales", JsVal.num 10)],
       [("year", JsVal.num 2020), ("sales", JsVal.num 5)],
       [("year", JsVal.num 2021), ("sales", JsVal.num 7)]]).1).map
        ChartRec.category ↔
      a ∈ [[("year", JsVal.num 2020), ("sales", JsVal.num 10)],
       [("year", JsVal.num 2020), ("sales", JsVal.num 5)],
       [("year", JsVal.num 2021), ("sales", JsVal.num 7)]].map
        (fun r => (getField r "year").getD (JsVal.str ""))) ∧
    (∀ rec ∈ (extractChartDataCore (some "year") (some "sales")
      [[("year", JsVal.num 2020), ("sales", JsVal.num 10)],
       [("year", JsVal.num 2020), ("sales", JsVal.num 5)],
       [("year", JsVal.num 2021), ("sales", JsVal.num 7)]]).1,
      rec.value = (([[("year", JsVal.num 2020), ("sales", JsVal.num 10)],
       [("year", JsVal.num 2020), ("sales", JsVal.num 5)],
       [("year", JsVal.num 2021), ("sales", JsVal.num 7)]].filter
          (fun r => (getField r "year").getD (JsVal.str "") =
            rec.category)).map
          (fun r => parseFloatOr0 (getField r "sales"))).sum) ∧
    (((extractChartDataCore (some "year") (some "sales")
      [[("year", JsVal.num 2020), ("sales", JsVal.num 10)],
       [("year", JsVal.num 2020), ("sales", JsVal.num 5)],
       [("year", JsVal.num 2021), ("sales", JsVal.num 7)]]).1).map
        ChartRec.value).sum =
      ([[("year", JsVal.num 2020), ("sales", JsVal.num 10)],
       [("year", JsVal.num 2020), ("sales", JsVal.num 5)],
       [("year", JsVal.num 2021), ("sales", JsVal.num 7)]].map
        (fun r => parseFloatOr0 (getField r "sales"))).sum ∧
    List.Chain' (fun a b => cmpLE a.category b.category = true)
      (extractChartDataCore (some "year") (some "sales")
        [[("year", JsVal.num 2020), ("sales", JsVal.num 10)],
         [("year", JsVal.num 2020), ("sales", JsVal.num 5)],
         [("year", JsVal.num 2021), ("sales", JsVal.num 7)]]).1 :=
  extractChartData_aggregation.1 "year" "sales"
    [[("year", JsVal.num 2020), ("sales", JsVal.num 10)],
     [("year", JsVal.num 2020), ("sales", JsVal.num 5)],
     [("year", JsVal.num 2021), ("sales", JsVal.num 7)]]
    (fun r => (getField r "year").getD (JsVal.str ""))
    (fun r => parseFloatOr0 (getField r "sales"))
    (by decide) (by decide) (by decide) (by decide) (by decide)

end

/-! ## Claim C5: timeout aborts the whole composition -/

/-- Claim C5: when the capture step loses the race against the global
timeout, `generateProfessionalChartPdf` returns `null` (no partial
document) and, when a progress callback is supplied, its last invocation
is the error stage with percentage `-1`. -/
theorem pdf_timeout_aborts (env : PdfEnv) (opts : PdfOpts)
    (h : env.race = RaceOutcome.timedOut) :
    (generateProfessionalChartPdf env opts).1 = none ∧
    (opts.hasOnProgress = true →
      (generateProfessionalChartPdf env opts).2.getLast? =
        some ("error", -1)) := by
  constructor
  · unfold generateProfessionalChartPdf
    rw [h]
  · intro hp
    unfold generateProfessionalChartPdf
    rw [h]
    simp [pdfEmit, hp]

/-- Claim C5 witness: a run whose capture times out, with a progress
callback supplied. -/
theorem pdf_timeout_aborts_witness :
    (generateProfessionalChartPdf
      ⟨RaceOutcome.timedOut, ⟨false, [], none, none⟩, none⟩
      ⟨none, none, true, true⟩).1 = none ∧
    (generateProfessionalChartPdf
      ⟨RaceOutcome.timedOut, ⟨false, [], none, none⟩, none⟩
      ⟨none, none, true, true⟩).2.getLast? = some ("error", -1) :=
  ⟨(pdf_timeout_aborts
      ⟨RaceOutcome.timedOut, ⟨false, [], none, none⟩, none⟩
      ⟨none, none, true, true⟩ rfl).1,
   (pdf_timeout_aborts
      ⟨RaceOutcome.timedOut, ⟨false, [], none, none⟩, none⟩
      ⟨none, none, true, true⟩ rfl).2 rfl⟩

end ChartPrint
